import Mathlib

/-!
Verification of the useradmin repository (src/useradmin.py).

This file contains a shallow embedding of the parts of `useradmin.py` that
the claims are about: the provisioning workflow engine (`add_user` and its
four subsystem steps), the batch manifest processor (`process_user_file`),
the Kerberos principal checker (`check_kerberos_principal`), and the quota
reporting subsystem (`get_all_quotas`, `get_user_quota`, and the quota field
of the detailed user listing).

External subsystems (the LDAP server, the kadmin tool, the filesystem, the
quota tools) are modelled by environment records whose fields give the
responses the Python code observes (return codes, stdout text, existence
bits, raised-exception flags).  The Python functions are translated line by
line over those environments.  Python dictionaries are modelled as
association lists with in-place-overwrite insertion, matching dict update
and lookup semantics.  Python string operations (str.split, str.strip,
str.startswith, str.lower, substring membership, int()) are modelled by
executable Lean functions over the character lists of strings.
-/

namespace UserAdmin

/-! ### String primitives (Python string semantics) -/

/-- Auxiliary splitter for Python str.split() with no argument: split on runs
of whitespace, dropping empty fields.  `acc` holds the current token
reversed. -/
def splitWsAux : List Char → List Char → List (List Char)
  | [], acc => if acc.isEmpty then [] else [acc.reverse]
  | c :: cs, acc =>
    if c.isWhitespace then
      if acc.isEmpty then splitWsAux cs [] else acc.reverse :: splitWsAux cs []
    else splitWsAux cs (c :: acc)

/-- Python line.split() (split on whitespace runs, no empty tokens). -/
def pySplit (s : String) : List String :=
  (splitWsAux s.toList []).map List.asString

/-- Auxiliary splitter for Python str.split(sep) with a one-character
separator: empty fields are kept. -/
def splitSepAux (sep : Char) : List Char → List Char → List (List Char)
  | [], acc => [acc.reverse]
  | c :: cs, acc =>
    if c = sep then acc.reverse :: splitSepAux sep cs []
    else splitSepAux sep cs (c :: acc)

/-- Python s.split(sep) for a single-character separator. -/
def pySplitChar (sep : Char) (s : String) : List String :=
  (splitSepAux sep s.toList []).map List.asString

/-- Python s.strip(): remove leading and trailing whitespace. -/
def pyStrip (s : String) : String :=
  (((s.toList.dropWhile Char.isWhitespace).reverse.dropWhile Char.isWhitespace).reverse).asString

/-- Python s.startswith(pre). -/
def pyStartsWith (s pre : String) : Bool :=
  pre.toList.isPrefixOf s.toList

/-- Python s.lower() (ASCII case folding suffices for the inputs used). -/
def pyLower (s : String) : String :=
  (s.toList.map Char.toLower).asString

/-- Contiguous-occurrence test on character lists. -/
def listInfix : List Char → List Char → Bool
  | pat, [] => pat.isEmpty
  | pat, l@(_ :: t) => pat.isPrefixOf l || listInfix pat t

/-- Python `pat in s` substring membership. -/
def pyIn (pat s : String) : Bool :=
  listInfix pat.toList s.toList

/-- Digit-sequence parser for Python int(): a digit, then digits optionally
separated by single underscores.  Returns the parsed value. -/
def pyDigitsGo : Nat → List Char → Option Nat
  | acc, [] => some acc
  | acc, '_' :: c :: rest =>
      if c.isDigit then pyDigitsGo (acc * 10 + (c.toNat - 48)) rest else none
  | _, ['_'] => none
  | acc, c :: rest =>
      if c.isDigit then pyDigitsGo (acc * 10 + (c.toNat - 48)) rest else none

/-- Nonempty digit string (Python int() body, underscores allowed between
digits). -/
def pyDigits : List Char → Option Nat
  | [] => none
  | c :: rest => if c.isDigit then pyDigitsGo (c.toNat - 48) rest else none

/-- Python int(s): optional surrounding whitespace, optional sign, digits.
Returns none where Python raises ValueError. -/
def pyInt (s : String) : Option Int :=
  match (pyStrip s).toList with
  | '+' :: rest => (pyDigits rest).map Int.ofNat
  | '-' :: rest => (pyDigits rest).map (fun n => -(n : Int))
  | cs => (pyDigits cs).map Int.ofNat

/-- Python [g.strip() for g in groups.split(",")] (add_user line 333). -/
def pySplitComma (s : String) : List String :=
  (pySplitChar ',' s).map pyStrip

/-! ### Association lists with Python dict semantics -/

/-- Python dict assignment d[k] = v: overwrite in place if the key exists,
else append. -/
def dictInsert {α : Type} : List (String × α) → String → α → List (String × α)
  | [], k, v => [(k, v)]
  | (k₁, w) :: rest, k, v =>
    if k₁ = k then (k, v) :: rest else (k₁, w) :: dictInsert rest k v

/-! ### External collaborator model -/

/-- Result of a subprocess.run call: exit code and captured stdout. -/
structure ProcResult where
  returncode : Int
  stdout : String
deriving DecidableEq

/-- Environment of the provisioning steps: the responses of the external
subsystems (LDAP directory, kadmin, local filesystem, quota tools) keyed by
the username being provisioned.  A `Raises` field true means the
corresponding Python call raises an exception (each step catches it and
returns False). -/
structure Env where
  ldapRaises : String → Bool
  ldapUserExists : String → Bool
  kerberosRaises : String → Bool
  kadminAddRc : String → String → Int
  homeRaises : String → Bool
  quotaRaises : String → Bool
  quotaSetRc : String → Int

/-! ### Provisioning steps (useradmin.py lines 145-322) -/

/-- add_user_to_ldap (lines 145-205): connect, then search for the user DN;
if the entry already exists, log a warning and return False (line 157);
otherwise create the primary group (if absent), the user entry, and the
extra group memberships, and return True.  Any exception is caught and
returns False.  The creation calls' results are not inspected by the Python
code, so only the existence check and the exception path determine the
outcome; the surname/firstname/groups arguments do not affect it. -/
def add_user_to_ldap (env : Env) (uid : Int) (username surname firstname : String)
    (groups : List String) : Bool :=
  if env.ldapRaises username then false
  else if env.ldapUserExists username then false
  else true

/-- add_user_to_kerberos (lines 207-232): run kadmin addprinc; True iff the
exit code is 0; exceptions yield False. -/
def add_user_to_kerberos (env : Env) (username password : String) : Bool :=
  if env.kerberosRaises username then false
  else if env.kadminAddRc username password = 0 then true else false

/-- create_home_directory (lines 234-277): mkdir, chmod, copy skeleton, then
chown (the KeyError for an unresolvable account is caught internally and the
step still succeeds); True unless some other exception is raised. -/
def create_home_directory (env : Env) (username : String) : Bool :=
  if env.homeRaises username then false else true

/-- set_user_quota (lines 279-322): invoke xfs_quota or setquota; True iff
the exit code is 0; exceptions yield False. -/
def set_user_quota (env : Env) (username : String) : Bool :=
  if env.quotaRaises username then false
  else if env.quotaSetRc username = 0 then true else false

/-! ### Provisioning workflow engine (add_user, lines 324-368) -/

/-- The four recognized step names in their fixed execution order. -/
def stepNames : List String := ["ldap", "kerberos", "home", "quota"]

/-- The per-step dispatch of add_user: which subsystem call a recognized
step name performs. -/
def stepFn (env : Env) (uid : Int) (groups username surname firstname password : String) :
    String → Bool
  | "ldap" => add_user_to_ldap env uid username surname firstname (pySplitComma groups)
  | "kerberos" => add_user_to_kerberos env username password
  | "home" => create_home_directory env username
  | "quota" => set_user_quota env username
  | _ => true

/-- The results dict built by add_user (lines 335-359): one entry per
requested recognized step, in the fixed order ldap, kerberos, home, quota,
holding that step's boolean outcome. -/
def add_user_results (env : Env) (uid : Int)
    (groups username surname firstname password : String) (steps : List String) :
    List (String × Bool) :=
  let results : List (String × Bool) := []
  let results := if steps.contains "ldap" then
    dictInsert results "ldap"
      (add_user_to_ldap env uid username surname firstname (pySplitComma groups))
    else results
  let results := if steps.contains "kerberos" then
    dictInsert results "kerberos" (add_user_to_kerberos env username password)
    else results
  let results := if steps.contains "home" then
    dictInsert results "home" (create_home_directory env username)
    else results
  let results := if steps.contains "quota" then
    dictInsert results "quota" (set_user_quota env username)
    else results
  results

/-- add_user (lines 324-368): run the requested steps, collect per-step
results, and return True iff no executed step failed (lines 361-368). -/
def add_user (env : Env) (uid : Int)
    (groups username surname firstname password : String) (steps : List String) : Bool :=
  let results := add_user_results env uid groups username surname firstname password steps
  let failed_steps := results.filter (fun p => !p.2)
  failed_steps.isEmpty

/-- The sequence of subsystem invocations add_user performs: the four
conditional blocks of lines 337-359 in source order.  A step name appears
iff it is in `steps`, in the fixed ldap, kerberos, home, quota order. -/
def add_user_trace (steps : List String) : List String :=
  (if steps.contains "ldap" then ["ldap"] else []) ++
  (if steps.contains "kerberos" then ["kerberos"] else []) ++
  (if steps.contains "home" then ["home"] else []) ++
  (if steps.contains "quota" then ["quota"] else [])

/-! ### Batch file processor (process_user_file, lines 370-403) -/

/-- One parsed manifest line: the six whitespace-separated fields with the
uid converted by int(). -/
structure UserSpec where
  uid : Int
  groups : String
  username : String
  surname : String
  firstname : String
  password : String
deriving DecidableEq

/-- Per-line parsing of process_user_file (lines 377-391): strip; skip blank
lines and comment lines; require exactly 6 whitespace-separated fields
(line 383); int(uid) failure (ValueError, caught at line 394) also skips
the line.  Returns the parsed fields for a well-formed line. -/
def parseUserLine (line : String) : Option UserSpec :=
  let l := pyStrip line
  if l = "" || pyStartsWith l "#" then none
  else
    match pySplit l with
    | [uid, groups, username, surname, firstname, password] =>
      match pyInt uid with
      | some n => some ⟨n, groups, username, surname, firstname, password⟩
      | none => none
    | _ => none

/-- A line that is reported and skipped by process_user_file: non-blank,
not a comment, but malformed (wrong field count or non-integer uid). -/
def badLine (line : String) : Bool :=
  !(pyStrip line = "") && !(pyStartsWith (pyStrip line) "#") && (parseUserLine line).isNone

/-- The outcome of the add_user invocation for one parsed manifest line
(lines 389-391). -/
def specOutcome (env : Env) (steps : List String) (sp : UserSpec) : Bool :=
  add_user env sp.uid sp.groups sp.username sp.surname sp.firstname sp.password steps

/-- The loop body of process_user_file (lines 376-396): a well-formed line
invokes add_user and assigns results[username]; any other line leaves the
state unchanged. -/
def processLineStep (env : Env) (steps : List String)
    (st : List (String × Bool) × List UserSpec) (line : String) :
    List (String × Bool) × List UserSpec :=
  match parseUserLine line with
  | none => st
  | some sp => (dictInsert st.1 sp.username (specOutcome env steps sp), st.2 ++ [sp])

/-- process_user_file (lines 370-403) over the manifest given as its list of
lines (none models a missing file: FileNotFoundError is logged and the empty
accumulated results are returned).  Returns the results dict mapping
username to the add_user outcome, together with the trace of add_user
invocations (one per well-formed line, in file order). -/
def process_user_file (env : Env) (file : Option (List String)) (steps : List String) :
    List (String × Bool) × List UserSpec :=
  match file with
  | none => ([], [])
  | some lines => lines.foldl (processLineStep env steps) ([], [])

/-- No line of the manifest is a well-formed line for username u. -/
def noLineFor (u : String) (lines : List String) : Bool :=
  lines.all (fun l => match parseUserLine l with
    | some sp => !(sp.username == u)
    | none => true)

/-! ### Kerberos principal checker (check_kerberos_principal, lines 405-437) -/

/-- Environment of check_kerberos_principal: configuration (realm,
check_method), the effective uid, the getprinc responses of the two kadmin
variants, and an exception flag (any exception is caught and yields
False). -/
structure KrbEnv where
  realm : String
  check_method : String
  euid : Nat
  krbRaises : String → Bool
  kadminLocalGetprinc : String → ProcResult
  kadminGetprinc : String → ProcResult

/-- The kadmin response check_kerberos_principal inspects: kadmin.local when
check_method = "kadmin.local" and running as root, else kadmin (lines
412-430). -/
def kadminResultUsed (env : KrbEnv) (username : String) : ProcResult :=
  if env.check_method = "kadmin.local" ∧ env.euid = 0 then
    env.kadminLocalGetprinc username
  else env.kadminGetprinc username

/-- check_kerberos_principal (lines 405-437): build the principal
username@REALM, run getprinc through the selected kadmin variant, and return
(returncode == 0) and ("Principal: <principal>" in stdout); exceptions yield
False. -/
def check_kerberos_principal (env : KrbEnv) (username : String) : Bool :=
  if env.krbRaises username then false
  else
    let principal := username ++ "@" ++ env.realm
    if env.check_method = "kadmin.local" ∧ env.euid = 0 then
      let result := env.kadminLocalGetprinc username
      decide (result.returncode = 0) && pyIn ("Principal: " ++ principal) result.stdout
    else
      let result := env.kadminGetprinc username
      decide (result.returncode = 0) && pyIn ("Principal: " ++ principal) result.stdout

/-! ### Quota subsystem (get_all_quotas lines 473-536, get_user_quota lines
538-609, list_users quota field lines 644-645) -/

/-- Responses of the quota backend tools: the two xfs_quota reports, the
quota -a report, and the per-user quota -u report. -/
structure QuotaBackend where
  xfsBlocks : ProcResult
  xfsInodes : ProcResult
  genericAll : ProcResult
  genericUser : String → ProcResult

/-- One per-user quota record as built by get_all_quotas: the optional
blocks, inodes and quota_str dict keys. -/
structure QuotaEntry where
  blocks : Option String
  inodes : Option String
  quota_str : Option String
deriving DecidableEq

/-- The fresh empty dict assigned at quotas[username] = {}. -/
def emptyEntry : QuotaEntry := ⟨none, none, none⟩

/-- Python quotas[username][field] = value with on-demand creation of the
entry (lines 500-502 and 511-513): update the entry in place if the key
exists, else append a new entry obtained from the empty dict. -/
def updEntry : List (String × QuotaEntry) → String → (QuotaEntry → QuotaEntry) →
    List (String × QuotaEntry)
  | [], k, f => [(k, f emptyEntry)]
  | (k₁, v) :: rest, k, f =>
    if k₁ = k then (k, f v) :: rest else (k₁, v) :: updEntry rest k f

/-- result.stdout.strip().split(chr 10) applied to a tool response. -/
def reportLines (r : ProcResult) : List String :=
  pySplitChar '\n' (pyStrip r.stdout)

/-- The report lines actually parsed: none when the tool exited nonzero. -/
def effReportLines (r : ProcResult) : List String :=
  if r.returncode = 0 then reportLines r else []

/-- parts[1]/parts[2]/parts[3] rendering of an xfs report row. -/
def slash3 (a b c : String) : String := a ++ "/" ++ b ++ "/" ++ c

/-- First tokens that mark xfs report header/separator/superuser rows
(line 498). -/
def xfsSentinels : List String := ["User", "User ID", "----------", "root"]

/-- First tokens that mark generic quota report header/superuser rows
(line 528). -/
def genericSentinels : List String := ["Filesystem", "root"]

/-- One iteration of the xfs report loops of get_all_quotas (lines 496-502
and 507-513), parameterized by which field of the entry the pass assigns:
split the line, require at least 5 fields and a non-sentinel first token,
and assign parts[1]/parts[2]/parts[3] into the row's entry. -/
def xfsPassStep (fieldSet : String → QuotaEntry → QuotaEntry)
    (q : List (String × QuotaEntry)) (line : String) : List (String × QuotaEntry) :=
  match pySplit line with
  | p0 :: p1 :: p2 :: p3 :: _ :: _ =>
    if xfsSentinels.contains p0 then q
    else updEntry q p0 (fieldSet (slash3 p1 p2 p3))
  | _ => q

/-- The blocks-report pass (lines 494-502). -/
def xfsBlocksStep : List (String × QuotaEntry) → String → List (String × QuotaEntry) :=
  xfsPassStep (fun v e => { e with blocks := some v })

/-- The inodes-report pass (lines 505-513). -/
def xfsInodesStep : List (String × QuotaEntry) → String → List (String × QuotaEntry) :=
  xfsPassStep (fun v e => { e with inodes := some v })

/-- The canonical rendering assembled at lines 516-519 from the blocks and
inodes fields, with "-" for a missing side. -/
def renderEntry (e : QuotaEntry) : String :=
  "blocks: " ++ e.blocks.getD "-" ++ "; inodes: " ++ e.inodes.getD "-"

/-- The final loop of the xfs branch (lines 516-519): set quota_str on every
collected entry. -/
def finalizeXfs (q : List (String × QuotaEntry)) : List (String × QuotaEntry) :=
  q.map (fun kv => (kv.1, { kv.2 with quota_str := some (renderEntry kv.2) }))

/-- One iteration of the generic (quota -a) loop of get_all_quotas (lines
525-532): require at least 6 fields and a non-sentinel first token, and
assign a fresh entry holding only quota_str built from parts 1, 2, 4, 5. -/
def genericStep (q : List (String × QuotaEntry)) (line : String) :
    List (String × QuotaEntry) :=
  match pySplit line with
  | p0 :: p1 :: p2 :: _ :: p4 :: p5 :: _ =>
    if genericSentinels.contains p0 then q
    else dictInsert q p0
      ⟨none, none, some ("blocks: " ++ p1 ++ "/" ++ p2 ++ "; inodes: " ++ p4 ++ "/" ++ p5)⟩
  | _ => q

/-- The xfs_quota blocks-report command (line 486). -/
def xfsBlocksCmd (home_base : String) : List String :=
  ["xfs_quota", "-x", "-c", "report -h", home_base]

/-- The xfs_quota inodes-report command (line 490). -/
def xfsInodesCmd (home_base : String) : List String :=
  ["xfs_quota", "-x", "-c", "report -h -i", home_base]

/-- The generic all-users quota command (line 522). -/
def genericAllCmd : List String := ["quota", "-a"]

/-- get_all_quotas (lines 473-536): one call builds the whole per-user quota
dict.  The first component is the list of external quota-tool invocations
issued (in order); the second is the resulting dict.  The xfs branch always
issues the blocks report and the inodes report (lines 486-491) and parses
each if its exit code is 0; the generic branch issues quota -a once (lines
522-523).  filesystem_type is the configured or detected type (lines
477-482). -/
def get_all_quotas (be : QuotaBackend) (filesystem_type home_base : String) :
    List (List String) × List (String × QuotaEntry) :=
  if pyLower filesystem_type = "xfs" then
    let q0 : List (String × QuotaEntry) := []
    let q1 := if be.xfsBlocks.returncode = 0 then
        (reportLines be.xfsBlocks).foldl xfsBlocksStep q0
      else q0
    let q2 := if be.xfsInodes.returncode = 0 then
        (reportLines be.xfsInodes).foldl xfsInodesStep q1
      else q1
    ([xfsBlocksCmd home_base, xfsInodesCmd home_base], finalizeXfs q2)
  else
    let q := if be.genericAll.returncode = 0 then
        (reportLines be.genericAll).foldl genericStep []
      else []
    ([genericAllCmd], q)

/-- One iteration of the per-user xfs report scans of get_user_quota (lines
555-561 and 568-575): if the stripped line starts with the username and has
at least 5 fields, overwrite the collected info with
parts[1]/parts[2]/parts[3]. -/
def xfsUserScanStep (username : String) (acc : Option String) (line : String) :
    Option String :=
  if pyStartsWith (pyStrip line) username then
    match pySplit line with
    | _ :: p1 :: p2 :: p3 :: _ :: _ => some (slash3 p1 p2 p3)
    | _ => acc
  else acc

/-- get_user_quota (lines 538-609), the legacy single-user quota renderer.
The xfs branch scans both reports for lines starting with the username and
renders "blocks: B; inodes: I" with "-" for a missing side, or the
"not set" sentinel when neither report matched (lines 576-582).  The
generic branch runs quota -u username and parses the third output line,
rendering blocks and inodes from fields 1, 2, 4, 5, only blocks when the
line has 4 or 5 fields, and the sentinel otherwise (lines 583-606). -/
def get_user_quota (be : QuotaBackend) (filesystem_type home_base username : String) :
    String :=
  if pyLower filesystem_type = "xfs" then
    let blocks_info := if be.xfsBlocks.returncode = 0 then
        (reportLines be.xfsBlocks).foldl (xfsUserScanStep username) none
      else none
    let inodes_info := if be.xfsInodes.returncode = 0 then
        (reportLines be.xfsInodes).foldl (xfsUserScanStep username) none
      else none
    if blocks_info.isSome || inodes_info.isSome then
      "blocks: " ++ blocks_info.getD "-" ++ "; inodes: " ++ inodes_info.getD "-"
    else "Не установлена"
  else
    let result := be.genericUser username
    if result.returncode = 0 then
      let lines := reportLines result
      if lines.length ≥ 3 then
        match pySplit (lines.getD 2 "") with
        | _ :: p1 :: p2 :: _ :: p4 :: p5 :: _ =>
          "blocks: " ++ p1 ++ "/" ++ p2 ++ "; inodes: " ++ p4 ++ "/" ++ p5
        | _ :: p1 :: p2 :: _ :: _ =>
          "blocks: " ++ p1 ++ "/" ++ p2
        | _ => "Не установлена"
      else "Не установлена"
    else "Не установлена"

/-- The quota column of the detailed user listing (list_users line 645):
all_quotas.get(username, empty).get(quota_str, "Не установлена") over the
dict produced by the single get_all_quotas call. -/
def list_user_quota_field (be : QuotaBackend) (filesystem_type home_base username : String) :
    String :=
  ((List.lookup username (get_all_quotas be filesystem_type home_base).2).bind
    QuotaEntry.quota_str).getD "Не установлена"

/-! ### Row-matching views of the report parsers

These definitions name, per report line, the value each parser loop
extracts, so the loops can be characterized as a last-match-wins scan. -/

/-- The value one xfs batch-report line contributes for user u (lines
497-502 / 508-513): at least 5 fields, a non-sentinel first token equal to
u, giving parts[1]/parts[2]/parts[3]. -/
def rowMatch (u line : String) : Option String :=
  match pySplit line with
  | p0 :: p1 :: p2 :: p3 :: _ :: _ =>
    if xfsSentinels.contains p0 then none
    else if p0 == u then some (slash3 p1 p2 p3) else none
  | _ => none

/-- The value one xfs report line contributes in the legacy single-user scan
(lines 557-561 / 571-575): the stripped line starts with the username and
has at least 5 fields, giving parts[1]/parts[2]/parts[3]. -/
def legacyMatch (username line : String) : Option String :=
  if pyStartsWith (pyStrip line) username then
    match pySplit line with
    | _ :: p1 :: p2 :: p3 :: _ :: _ => some (slash3 p1 p2 p3)
    | _ => none
  else none

/-- The entry one generic (quota -a) report line contributes for user u
(lines 527-532): at least 6 fields, a non-sentinel first token equal to u. -/
def genRowMatch (u line : String) : Option String :=
  match pySplit line with
  | p0 :: p1 :: p2 :: _ :: p4 :: p5 :: _ =>
    if genericSentinels.contains p0 then none
    else if p0 == u then
      some ("blocks: " ++ p1 ++ "/" ++ p2 ++ "; inodes: " ++ p4 ++ "/" ++ p5)
    else none
  | _ => none

/-- The contribution of the lexically last matching report line (Python
loops overwrite, so the last match wins). -/
def lastMatch (m : String → Option String) (lines : List String) : Option String :=
  (lines.filterMap m).getLast?

/-- Whether the first whitespace-separated token of the line is u. -/
def headIs (u line : String) : Bool :=
  match pySplit line with
  | p0 :: _ => p0 == u
  | [] => false

/-- On every line, the legacy matching criterion (stripped line starts with
u) agrees with the batch criterion (first token equals u).  This fails only
for degenerate usernames (empty, containing whitespace, or a proper prefix
of another first token appearing in the report). -/
def startsMatchAligned (u : String) (lines : List String) : Bool :=
  lines.all (fun line => pyStartsWith (pyStrip line) u == headIs u line)

/-- User u has no matching data row in an xfs report, under either parser's
matching criterion. -/
def xfsNoRowFor (u : String) (r : ProcResult) : Bool :=
  (effReportLines r).all (fun line =>
    (rowMatch u line).isNone && (legacyMatch u line).isNone)

/-- User u has no matching data row in the generic quota -a report. -/
def genericNoRowFor (u : String) (r : ProcResult) : Bool :=
  (effReportLines r).all (fun line => (genRowMatch u line).isNone)

/-- The quota -u output for a user carries no parseable data row: nonzero
exit, fewer than three lines, or a third line with fewer than 4 fields. -/
def genericUserNoRow (r : ProcResult) : Bool :=
  !(decide (r.returncode = 0)) || decide ((reportLines r).length < 3) ||
    decide ((pySplit ((reportLines r).getD 2 "")).length < 4)

/-! ### Concrete environments used by the witnesses and counterexamples -/

/-- All subsystems available and succeeding; no directory entry exists. -/
def envAllOk : Env :=
  ⟨fun _ => false, fun _ => false, fun _ => false, fun _ _ => 0,
   fun _ => false, fun _ => false, fun _ => 0⟩

/-- All subsystems available; the directory entry for every user already
exists. -/
def envLdapExists : Env :=
  ⟨fun _ => false, fun _ => true, fun _ => false, fun _ _ => 0,
   fun _ => false, fun _ => false, fun _ => 0⟩

/-- The realm tool fails (nonzero exit) while every other subsystem
succeeds. -/
def envKrbFail : Env :=
  ⟨fun _ => false, fun _ => false, fun _ => false, fun _ _ => 1,
   fun _ => false, fun _ => false, fun _ => 0⟩

/-- kadmin accepts only the password "good"; other subsystems succeed. -/
def envPwKrb : Env :=
  ⟨fun _ => false, fun _ => false, fun _ => false,
   fun _ pw => if pw = "good" then 0 else 1,
   fun _ => false, fun _ => false, fun _ => 0⟩

/-- An xfs backend sample: headers, separator, the root row, and data rows
for alice in both reports. -/
def beXfs1 : QuotaBackend :=
  { xfsBlocks := ⟨0, "User ID   Used   Soft   Hard Warn/Grace
---------- ---------
root 0 0 0 00 [--------]
alice 50M 100M 200M 00 [--------]"⟩
  , xfsInodes := ⟨0, "User ID   Used   Soft   Hard Warn/Grace
---------- ---------
root 3 0 0 00 [--------]
alice 500 1000 2000 00 [--------]"⟩
  , genericAll := ⟨0, ""⟩
  , genericUser := fun _ => ⟨0, ""⟩ }

/-- A generic backend sample in which both the batch tool and the per-user
tool return the same single data row for alice. -/
def beGen1 : QuotaBackend :=
  { xfsBlocks := ⟨1, ""⟩, xfsInodes := ⟨1, ""⟩
  , genericAll := ⟨0, "alice 10 20 30 1 5 6"⟩
  , genericUser := fun _ => ⟨0, "alice 10 20 30 1 5 6"⟩ }

/-! ## Supporting lemmas

Characterizations of the embedded functions used by the claim theorems:
dict lookup after insertion, last-match-wins characterizations of the
report-parsing folds, and the shape of the add_user results. -/

theorem lookup_dictInsert {α : Type} (d : List (String × α)) (k u : String) (v : α) :
    List.lookup u (dictInsert d k v) = if k = u then some v else List.lookup u d := by
  induction d with
  | nil =>
    by_cases h : k = u
    · subst h; simp [dictInsert, List.lookup]
    · have hb : (u == k) = false := beq_eq_false_iff_ne.mpr (Ne.symm h)
      simp [dictInsert, List.lookup, h, hb]
  | cons hd tl ih =>
    obtain ⟨k₁, w⟩ := hd
    by_cases h1 : k₁ = k
    · subst h1
      by_cases h : k₁ = u
      · subst h; simp [dictInsert, List.lookup]
      · have hb : (u == k₁) = false := beq_eq_false_iff_ne.mpr (Ne.symm h)
        simp [dictInsert, List.lookup, h, hb]
    · by_cases h : k₁ = u
      · subst h
        have hku : ¬(k = k₁) := fun hh => h1 hh.symm
        simp [dictInsert, List.lookup, h1, hku, ih]
      · have hb : (u == k₁) = false := beq_eq_false_iff_ne.mpr (Ne.symm h)
        simp [dictInsert, List.lookup, h1, hb, ih]

theorem lookup_updEntry (q : List (String × QuotaEntry)) (k u : String)
    (f : QuotaEntry → QuotaEntry) :
    List.lookup u (updEntry q k f) =
      if k = u then some (f ((List.lookup u q).getD emptyEntry))
      else List.lookup u q := by
  induction q with
  | nil =>
    by_cases h : k = u
    · subst h; simp [updEntry, List.lookup]
    · have hb : (u == k) = false := beq_eq_false_iff_ne.mpr (Ne.symm h)
      simp [updEntry, List.lookup, h, hb]
  | cons hd tl ih =>
    obtain ⟨k₁, w⟩ := hd
    by_cases h1 : k₁ = k
    · subst h1
      by_cases h : k₁ = u
      · subst h; simp [updEntry, List.lookup]
      · have hb : (u == k₁) = false := beq_eq_false_iff_ne.mpr (Ne.symm h)
        simp [updEntry, List.lookup, h, hb]
    · by_cases h : k₁ = u
      · subst h
        have hku : ¬(k = k₁) := fun hh => h1 hh.symm
        simp [updEntry, List.lookup, h1, hku, ih]
      · have hb : (u == k₁) = false := beq_eq_false_iff_ne.mpr (Ne.symm h)
        simp [updEntry, List.lookup, h1, hb, ih]

theorem getLast?_cons_form {α : Type} (w : α) (l : List α) :
    (w :: l).getLast? = match l.getLast? with | some v => some v | none => some w := by
  induction l generalizing w with
  | nil => simp
  | cons b t ih => cases h : t.getLast? <;> simp [List.getLast?_cons_cons, ih, h]

theorem lastMatch_cons (m : String → Option String) (line : String) (rest : List String) :
    lastMatch m (line :: rest) =
      match lastMatch m rest with | some v => some v | none => m line := by
  cases h : m line with
  | none =>
    unfold lastMatch
    rw [List.filterMap_cons, h]
    cases h2 : (rest.filterMap m).getLast? <;> simp only [h2, h]
  | some w =>
    unfold lastMatch
    rw [List.filterMap_cons, h, getLast?_cons_form]
    cases h2 : (rest.filterMap m).getLast? <;> simp only [h2]

theorem foldl_optStep (m : String → Option String) (lines : List String) :
    ∀ acc : Option String,
    lines.foldl (fun a line => match m line with | some v => some v | none => a) acc =
      match lastMatch m lines with | some v => some v | none => acc := by
  induction lines with
  | nil => intro acc; simp [lastMatch]
  | cons line rest ih =>
    intro acc
    simp only [List.foldl_cons]
    rw [ih, lastMatch_cons]
    cases h1 : lastMatch m rest <;> cases h2 : m line <;> simp only [h1, h2]

theorem xfsPassStep_lookup (fieldSet : String → QuotaEntry → QuotaEntry)
    (q : List (String × QuotaEntry)) (line u : String) :
    List.lookup u (xfsPassStep fieldSet q line) =
      match rowMatch u line with
      | some v => some (fieldSet v ((List.lookup u q).getD emptyEntry))
      | none => List.lookup u q := by
  unfold xfsPassStep rowMatch
  rcases hps : pySplit line with _ | ⟨p0, _ | ⟨p1, _ | ⟨p2, _ | ⟨p3, _ | ⟨p4, rest⟩⟩⟩⟩⟩ <;>
    simp only
  by_cases hs : xfsSentinels.contains p0 = true
  · simp [hs, List.elem_iff.mp hs]
  · rw [if_neg hs, if_neg hs, lookup_updEntry]
    by_cases hp : p0 = u
    · subst hp; simp
    · have hb : (p0 == u) = false := beq_eq_false_iff_ne.mpr hp
      simp [hp, hb]

theorem xfsPass_fold_lookup (fieldSet : String → QuotaEntry → QuotaEntry)
    (hff : ∀ v w e, fieldSet v (fieldSet w e) = fieldSet v e)
    (lines : List String) :
    ∀ (q : List (String × QuotaEntry)) (u : String),
    List.lookup u (lines.foldl (xfsPassStep fieldSet) q) =
      match lastMatch (rowMatch u) lines with
      | some v => some (fieldSet v ((List.lookup u q).getD emptyEntry))
      | none => List.lookup u q := by
  induction lines with
  | nil => intro q u; simp [lastMatch]
  | cons line rest ih =>
    intro q u
    simp only [List.foldl_cons]
    rw [ih, lastMatch_cons, xfsPassStep_lookup]
    cases h1 : lastMatch (rowMatch u) rest <;> cases h2 : rowMatch u line <;>
      simp only [h1, h2, Option.getD_some, hff]

theorem genericStep_lookup (q : List (String × QuotaEntry)) (line u : String) :
    List.lookup u (genericStep q line) =
      match genRowMatch u line with
      | some s => some ⟨none, none, some s⟩
      | none => List.lookup u q := by
  unfold genericStep genRowMatch
  rcases hps : pySplit line with _ | ⟨p0, _ | ⟨p1, _ | ⟨p2, _ | ⟨p3, _ | ⟨p4, _ | ⟨p5, rest⟩⟩⟩⟩⟩⟩ <;>
    simp only
  by_cases hs : genericSentinels.contains p0 = true
  · simp [hs, List.elem_iff.mp hs]
  · rw [if_neg hs, if_neg hs, lookup_dictInsert]
    by_cases hp : p0 = u
    · subst hp; simp
    · have hb : (p0 == u) = false := beq_eq_false_iff_ne.mpr hp
      simp [hp, hb]

theorem generic_fold_lookup (lines : List String) :
    ∀ (q : List (String × QuotaEntry)) (u : String),
    List.lookup u (lines.foldl genericStep q) =
      match lastMatch (genRowMatch u) lines with
      | some s => some ⟨none, none, some s⟩
      | none => List.lookup u q := by
  induction lines with
  | nil => intro q u; simp [lastMatch]
  | cons line rest ih =>
    intro q u
    simp only [List.foldl_cons]
    rw [ih, lastMatch_cons, genericStep_lookup]
    cases h1 : lastMatch (genRowMatch u) rest <;> cases h2 : genRowMatch u line <;>
      simp only [h1, h2]

theorem finalizeXfs_lookup (q : List (String × QuotaEntry)) (u : String) :
    List.lookup u (finalizeXfs q) =
      (List.lookup u q).map (fun e => { e with quota_str := some (renderEntry e) }) := by
  induction q with
  | nil => simp [finalizeXfs]
  | cons hd tl ih =>
    obtain ⟨k, e⟩ := hd
    by_cases h : u = k
    · subst h
      simp [finalizeXfs, List.lookup]
    · have hb : (u == k) = false := beq_eq_false_iff_ne.mpr h
      simp [finalizeXfs, List.lookup, hb] at ih ⊢
      exact ih

theorem cond_fold_eff (r : ProcResult) (step : List (String × QuotaEntry) → String → List (String × QuotaEntry))
    (q : List (String × QuotaEntry)) :
    (if r.returncode = 0 then (reportLines r).foldl step q else q) =
      (effReportLines r).foldl step q := by
  by_cases h : r.returncode = 0 <;> simp [effReportLines, h]

theorem get_all_quotas_xfs_lookup (be : QuotaBackend) (fsType hb u : String)
    (hfs : pyLower fsType = "xfs") :
    List.lookup u (get_all_quotas be fsType hb).2 =
      match lastMatch (rowMatch u) (effReportLines be.xfsBlocks),
            lastMatch (rowMatch u) (effReportLines be.xfsInodes) with
      | none, none => none
      | bm, im => some ⟨bm, im, some ("blocks: " ++ bm.getD "-" ++ "; inodes: " ++ im.getD "-")⟩ := by
  unfold get_all_quotas
  rw [if_pos hfs]
  simp only [cond_fold_eff, xfsBlocksStep, xfsInodesStep]
  rw [finalizeXfs_lookup]
  rw [xfsPass_fold_lookup (fun v e => { e with inodes := some v }) (fun v w e => rfl)]
  rw [xfsPass_fold_lookup (fun v e => { e with blocks := some v }) (fun v w e => rfl)]
  cases h1 : lastMatch (rowMatch u) (effReportLines be.xfsBlocks) <;>
    cases h2 : lastMatch (rowMatch u) (effReportLines be.xfsInodes) <;>
      simp [renderEntry, emptyEntry]

theorem get_all_quotas_generic_lookup (be : QuotaBackend) (fsType hb u : String)
    (hfs : ¬ (pyLower fsType = "xfs")) :
    List.lookup u (get_all_quotas be fsType hb).2 =
      match lastMatch (genRowMatch u) (effReportLines be.genericAll) with
      | some s => some ⟨none, none, some s⟩
      | none => none := by
  unfold get_all_quotas
  rw [if_neg hfs]
  simp only [cond_fold_eff]
  rw [generic_fold_lookup]
  cases h1 : lastMatch (genRowMatch u) (effReportLines be.genericAll) <;> simp only [List.lookup]

theorem xfsUserScanStep_eq (username : String) :
    xfsUserScanStep username = (fun acc line =>
      match legacyMatch username line with | some v => some v | none => acc) := by
  funext acc line
  unfold xfsUserScanStep legacyMatch
  by_cases h : pyStartsWith (pyStrip line) username = true
  · rw [if_pos h, if_pos h]
    rcases hps : pySplit line with _ | ⟨p0, _ | ⟨p1, _ | ⟨p2, _ | ⟨p3, _ | ⟨p4, rest⟩⟩⟩⟩⟩ <;> rfl
  · rw [if_neg h, if_neg h]

theorem cond_scan_eff (r : ProcResult) (username : String) :
    (if r.returncode = 0 then (reportLines r).foldl (xfsUserScanStep username) none else none) =
      lastMatch (legacyMatch username) (effReportLines r) := by
  by_cases h : r.returncode = 0 <;>
    simp only [effReportLines, h, if_pos, if_neg, if_true, if_false]
  · rw [xfsUserScanStep_eq, foldl_optStep]
    cases hl : lastMatch (legacyMatch username) (reportLines r) <;> simp only
  · simp [lastMatch]

theorem get_user_quota_xfs (be : QuotaBackend) (fsType hb u : String)
    (hfs : pyLower fsType = "xfs") :
    get_user_quota be fsType hb u =
      match lastMatch (legacyMatch u) (effReportLines be.xfsBlocks),
            lastMatch (legacyMatch u) (effReportLines be.xfsInodes) with
      | none, none => "Не установлена"
      | bm, im => "blocks: " ++ bm.getD "-" ++ "; inodes: " ++ im.getD "-" := by
  unfold get_user_quota
  rw [if_pos hfs]
  simp only [cond_scan_eff]
  cases h1 : lastMatch (legacyMatch u) (effReportLines be.xfsBlocks) <;>
    cases h2 : lastMatch (legacyMatch u) (effReportLines be.xfsInodes) <;>
      simp [h1, h2]

theorem rowMatch_eq_legacyMatch (u line : String)
    (hal : pyStartsWith (pyStrip line) u = headIs u line)
    (hsent : xfsSentinels.contains u = false) :
    rowMatch u line = legacyMatch u line := by
  unfold rowMatch legacyMatch
  unfold headIs at hal
  rcases hps : pySplit line with _ | ⟨p0, _ | ⟨p1, _ | ⟨p2, _ | ⟨p3, _ | ⟨p4, rest⟩⟩⟩⟩⟩ <;>
    rw [hps] at hal <;> simp only at hal ⊢
  · simp [hal]
  · rw [hal]; cases hb : (p0 == u) <;> simp [hb]
  · rw [hal]; cases hb : (p0 == u) <;> simp [hb]
  · rw [hal]; cases hb : (p0 == u) <;> simp [hb]
  · rw [hal]; cases hb : (p0 == u) <;> simp [hb]
  · rw [hal]
    cases hb : (p0 == u)
    · simp [hb]
    · have hpu : p0 = u := beq_iff_eq.mp hb
      subst hpu
      simp [hb, hsent]
      exact fun hm => Bool.false_ne_true (hsent ▸ List.elem_iff.mpr hm)

theorem filterMap_row_eq_legacy (u : String) (lines : List String)
    (hsent : xfsSentinels.contains u = false) :
    startsMatchAligned u lines = true →
    lines.filterMap (rowMatch u) = lines.filterMap (legacyMatch u) := by
  unfold startsMatchAligned
  induction lines with
  | nil => intro _; rfl
  | cons line rest ih =>
    intro hal
    rw [List.all_cons, Bool.and_eq_true] at hal
    obtain ⟨h1, h2⟩ := hal
    rw [List.filterMap_cons, List.filterMap_cons,
        rowMatch_eq_legacyMatch u line (by simpa using h1) hsent, ih h2]

theorem lastMatch_row_eq_legacy (u : String) (lines : List String)
    (hsent : xfsSentinels.contains u = false)
    (hal : startsMatchAligned u lines = true) :
    lastMatch (rowMatch u) lines = lastMatch (legacyMatch u) lines := by
  unfold lastMatch
  rw [filterMap_row_eq_legacy u lines hsent hal]

theorem add_user_results_eq (env : Env) (uid : Int)
    (groups username surname firstname password : String) (steps : List String) :
    add_user_results env uid groups username surname firstname password steps =
      (stepNames.filter (fun s => steps.contains s)).map
        (fun s => (s, stepFn env uid groups username surname firstname password s)) := by
  unfold add_user_results stepNames
  by_cases hl : "ldap" ∈ steps <;> by_cases hk : "kerberos" ∈ steps <;>
    by_cases hh : "home" ∈ steps <;> by_cases hq : "quota" ∈ steps <;>
      simp [hl, hk, hh, hq, dictInsert, stepFn] <;> rfl

theorem add_user_trace_eq (steps : List String) :
    add_user_trace steps = stepNames.filter (fun s => steps.contains s) := by
  unfold add_user_trace stepNames
  by_cases hl : "ldap" ∈ steps <;> by_cases hk : "kerberos" ∈ steps <;>
    by_cases hh : "home" ∈ steps <;> by_cases hq : "quota" ∈ steps <;>
      simp [hl, hk, hh, hq]

theorem filter_map_isEmpty (f : String → Bool) (l : List String) :
    ((l.map (fun s => (s, f s))).filter (fun p => !p.2)).isEmpty = l.all f := by
  induction l with
  | nil => rfl
  | cons s rest ih => cases h : f s <;> simp [List.filter_cons, h, ih, List.all_cons]

theorem add_user_eq_all (env : Env) (uid : Int)
    (groups username surname firstname password : String) (steps : List String) :
    add_user env uid groups username surname firstname password steps =
      (stepNames.filter (fun s => steps.contains s)).all
        (stepFn env uid groups username surname firstname password) := by
  unfold add_user
  rw [add_user_results_eq, filter_map_isEmpty]

theorem lookup_map_self (f : String → Bool) (l : List String) (s : String) :
    List.lookup s (l.map (fun t => (t, f t))) = if s ∈ l then some (f s) else none := by
  induction l with
  | nil => simp [List.lookup]
  | cons t rest ih =>
    by_cases h : s = t
    · subst h; simp [List.lookup]
    · have hb : (s == t) = false := beq_eq_false_iff_ne.mpr h
      simp [List.lookup, hb, h, ih]

theorem add_user_results_lookup (env : Env) (uid : Int)
    (groups username surname firstname password : String) (steps : List String) (s : String) :
    List.lookup s (add_user_results env uid groups username surname firstname password steps) =
      if s ∈ stepNames ∧ steps.contains s = true then
        some (stepFn env uid groups username surname firstname password s)
      else none := by
  rw [add_user_results_eq, lookup_map_self]
  by_cases h : s ∈ stepNames.filter (fun t => steps.contains t)
  · rw [if_pos h, if_pos (by simpa using (List.mem_filter.mp h))]
  · rw [if_neg h, if_neg (fun hc => h (List.mem_filter.mpr (by simpa using hc)))]

theorem processLineStep_fold (env : Env) (steps : List String) (lines : List String) :
    ∀ st : List (String × Bool) × List UserSpec,
    lines.foldl (processLineStep env steps) st =
      ((lines.filterMap parseUserLine).foldl
         (fun d sp => dictInsert d sp.username (specOutcome env steps sp)) st.1,
       st.2 ++ lines.filterMap parseUserLine) := by
  induction lines with
  | nil => intro st; simp
  | cons line rest ih =>
    intro st
    cases h : parseUserLine line <;>
      simp [processLineStep, h, ih, List.filterMap_cons]

theorem lookup_foldl_insert (val : UserSpec → Bool) (sps : List UserSpec) :
    ∀ (d : List (String × Bool)) (u : String),
    List.lookup u (sps.foldl (fun d sp => dictInsert d sp.username (val sp)) d) =
      match (sps.filter (fun sp => sp.username == u)).getLast? with
      | some sp => some (val sp)
      | none => List.lookup u d := by
  induction sps with
  | nil => intro d u; simp
  | cons sp rest ih =>
    intro d u
    simp only [List.foldl_cons, List.filter_cons]
    by_cases hb : sp.username = u
    · rw [if_pos (by simpa using hb), ih, getLast?_cons_form]
      cases h2 : (rest.filter (fun sp => sp.username == u)).getLast? <;>
        simp only [h2, lookup_dictInsert, if_pos hb]
    · rw [if_neg (by simpa using hb), ih]
      cases h2 : (rest.filter (fun sp => sp.username == u)).getLast? <;>
        simp only [h2, lookup_dictInsert, if_neg hb]

theorem mem_keys_dictInsert {α : Type} (d : List (String × α)) (k u : String) (v : α) :
    u ∈ (dictInsert d k v).map Prod.fst ↔ u ∈ d.map Prod.fst ∨ u = k := by
  induction d with
  | nil => simp [dictInsert]
  | cons hd tl ih =>
    obtain ⟨k₁, w⟩ := hd
    by_cases h1 : k₁ = k
    · subst h1; simp [dictInsert]
      tauto
    · simp [dictInsert, h1, ih]
      tauto

theorem nodup_keys_dictInsert {α : Type} (d : List (String × α)) (k : String) (v : α)
    (h : (d.map Prod.fst).Nodup) : ((dictInsert d k v).map Prod.fst).Nodup := by
  induction d with
  | nil => simp [dictInsert]
  | cons hd tl ih =>
    obtain ⟨k₁, w⟩ := hd
    rw [List.map_cons, List.nodup_cons] at h
    obtain ⟨hnm, hnd⟩ := h
    by_cases h1 : k₁ = k
    · subst h1
      have hins : dictInsert ((k₁, w) :: tl) k₁ v = (k₁, v) :: tl := by simp [dictInsert]
      rw [hins, List.map_cons, List.nodup_cons]
      exact ⟨hnm, hnd⟩
    · simp only [dictInsert, if_neg h1, List.map_cons, List.nodup_cons]
      refine ⟨fun hm => ?_, ih hnd⟩
      rcases (mem_keys_dictInsert tl k k₁ v).mp hm with hm1 | hm1
      · exact hnm hm1
      · exact h1 hm1

theorem nodup_keys_foldl_insert (val : UserSpec → Bool) (sps : List UserSpec) :
    ∀ d : List (String × Bool), (d.map Prod.fst).Nodup →
    ((sps.foldl (fun d sp => dictInsert d sp.username (val sp)) d).map Prod.fst).Nodup := by
  induction sps with
  | nil => intro d h; simpa using h
  | cons sp rest ih =>
    intro d h
    exact ih _ (nodup_keys_dictInsert d sp.username (val sp) h)

/-! ## Claim theorems -/

/-- C1, counterexample: with the directory subsystem available and the
user's directory entry already existing, re-provisioning with the directory
step requested records False (a failed outcome) for the ldap step and the
overall result is False — not StepOutcome.succeeded as the claim states. -/
theorem reprovision_existing_counterexample :
    envLdapExists.ldapUserExists "alice" = true ∧
    envLdapExists.ldapRaises "alice" = false ∧
    List.lookup "ldap"
      (add_user_results envLdapExists 1001 "students" "alice" "Ivanova" "Alice" "secret123"
        ["ldap"]) = some false ∧
    add_user envLdapExists 1001 "students" "alice" "Ivanova" "Alice" "secret123"
      ["ldap"] = false := by
  refine ⟨rfl, rfl, ?_, ?_⟩ <;> decide

/-- C1, amended: re-provisioning a user whose directory entry already exists,
with the directory step requested, does not raise: the engine checks
existence first and returns without attempting creation — but it records the
step as failed (False), not succeeded, and the overall result is False. -/
theorem reprovision_existing_fails_without_error (env : Env) (uid : Int)
    (groups username surname firstname password : String) (steps : List String)
    (hex : env.ldapUserExists username = true)
    (hnr : env.ldapRaises username = false)
    (hstep : steps.contains "ldap" = true) :
    List.lookup "ldap"
      (add_user_results env uid groups username surname firstname password steps) =
        some false ∧
    add_user env uid groups username surname firstname password steps = false := by
  have hval : add_user_to_ldap env uid username surname firstname (pySplitComma groups)
      = false := by
    unfold add_user_to_ldap
    rw [hnr, hex]
    simp
  constructor
  · rw [add_user_results_lookup,
        if_pos ⟨by simp [stepNames], hstep⟩]
    simpa [stepFn] using hval
  · rw [add_user_eq_all]
    have hmem : "ldap" ∈ stepNames.filter (fun s => steps.contains s) :=
      List.mem_filter.mpr ⟨by simp [stepNames], by simpa using hstep⟩
    cases hall : (stepNames.filter (fun s => steps.contains s)).all
        (stepFn env uid groups username surname firstname password)
    · rfl
    · exfalso
      have := List.all_eq_true.mp hall _ hmem
      rw [show stepFn env uid groups username surname firstname password "ldap" =
            add_user_to_ldap env uid username surname firstname (pySplitComma groups)
          from rfl, hval] at this
      exact Bool.false_ne_true this

/-- C1, witness for the amended theorem at a concrete input. -/
theorem reprovision_existing_fails_without_error_witness :
    (envLdapExists.ldapUserExists "bob" = true ∧
     envLdapExists.ldapRaises "bob" = false ∧
     (["ldap", "home"].contains "ldap") = true) ∧
    (List.lookup "ldap"
      (add_user_results envLdapExists 1002 "students" "bob" "Petrov" "Bob" "pw"
        ["ldap", "home"]) = some false ∧
     add_user envLdapExists 1002 "students" "bob" "Petrov" "Bob" "pw"
       ["ldap", "home"] = false) :=
  ⟨⟨by decide, by decide, by decide⟩,
   reprovision_existing_fails_without_error envLdapExists 1002 "students" "bob" "Petrov"
     "Bob" "pw" ["ldap", "home"] (by decide) (by decide) (by decide)⟩

/-- C2: when every requested step is a recognized step name, each requested
step is attempted and recorded with its own subsystem outcome (no early
abort on failure), and the overall result is True exactly when every
requested step succeeded — hence False iff at least one requested step
failed. -/
theorem add_user_failure_isolation (env : Env) (uid : Int)
    (groups username surname firstname password : String) (steps : List String)
    (hsub : steps.all (fun s => stepNames.contains s) = true) :
    (∀ s, s ∈ steps →
      List.lookup s (add_user_results env uid groups username surname firstname password steps)
        = some (stepFn env uid groups username surname firstname password s)) ∧
    (add_user env uid groups username surname firstname password steps = true ↔
      ∀ s, s ∈ steps → stepFn env uid groups username surname firstname password s = true) := by
  have hsub2 : ∀ s, s ∈ steps → s ∈ stepNames := fun s hs =>
    List.elem_iff.mp (List.all_eq_true.mp hsub s hs)
  constructor
  · intro s hs
    rw [add_user_results_lookup, if_pos ⟨hsub2 s hs, List.elem_iff.mpr hs⟩]
  · rw [add_user_eq_all, List.all_eq_true]
    constructor
    · intro h s hs
      exact h s (List.mem_filter.mpr ⟨hsub2 s hs, by simpa using List.elem_iff.mpr hs⟩)
    · intro h s hs
      obtain ⟨h1, h2⟩ := List.mem_filter.mp hs
      exact h s (List.elem_iff.mp (by simpa using h2))

/-- C2, witness: with the realm tool failing and the other subsystems
healthy, all three requested steps are recorded (the kerberos failure does
not abort home), and the overall result is False because a requested step
failed. -/
theorem add_user_failure_isolation_witness :
    ((["ldap", "kerberos", "home"].all (fun s => stepNames.contains s)) = true) ∧
    (List.lookup "kerberos"
      (add_user_results envKrbFail 1001 "students" "alice" "Ivanova" "Alice" "secret123"
        ["ldap", "kerberos", "home"]) =
      some (stepFn envKrbFail 1001 "students" "alice" "Ivanova" "Alice" "secret123"
        "kerberos")) ∧
    (List.lookup "home"
      (add_user_results envKrbFail 1001 "students" "alice" "Ivanova" "Alice" "secret123"
        ["ldap", "kerberos", "home"]) =
      some (stepFn envKrbFail 1001 "students" "alice" "Ivanova" "Alice" "secret123"
        "home")) ∧
    add_user envKrbFail 1001 "students" "alice" "Ivanova" "Alice" "secret123"
      ["ldap", "kerberos", "home"] = false :=
  ⟨by decide,
   (add_user_failure_isolation envKrbFail 1001 "students" "alice" "Ivanova" "Alice"
      "secret123" ["ldap", "kerberos", "home"] (by decide)).1 "kerberos" (by decide),
   (add_user_failure_isolation envKrbFail 1001 "students" "alice" "Ivanova" "Alice"
      "secret123" ["ldap", "kerberos", "home"] (by decide)).1 "home" (by decide),
   by decide⟩

/-- C3, counterexample: with only the home step listed, the unlisted ldap
step does not appear in the results at all — there is no entry for it (no
skipped outcome is recorded), contradicting the claim that every unlisted
step appears recorded as skipped. -/
theorem unlisted_step_not_recorded_counterexample :
    add_user_results envAllOk 1001 "students" "alice" "Ivanova" "Alice" "secret123"
      ["home"] = [("home", true)] ∧
    List.lookup "ldap"
      (add_user_results envAllOk 1001 "students" "alice" "Ivanova" "Alice" "secret123"
        ["home"]) = none := by
  constructor <;> decide

/-- C3, amended: the steps execute in the fixed order ldap (directory),
kerberos (credential), home, quota regardless of the order in which they
are listed (the invocation trace is the canonical order filtered by
membership, so it depends only on which names are listed); only listed
steps run; and every recognized step not listed is absent from the result
mapping (rather than recorded as skipped). -/
theorem add_user_fixed_order_unlisted_absent (env : Env) (uid : Int)
    (groups username surname firstname password : String) (steps : List String) :
    add_user_trace steps = stepNames.filter (fun s => steps.contains s) ∧
    (∀ steps₂ : List String, (∀ s, steps.contains s = steps₂.contains s) →
      add_user_trace steps = add_user_trace steps₂) ∧
    (∀ s, s ∈ stepNames → steps.contains s = false →
      List.lookup s (add_user_results env uid groups username surname firstname password steps)
        = none) := by
  refine ⟨add_user_trace_eq steps, ?_, ?_⟩
  · intro steps₂ h
    rw [add_user_trace_eq, add_user_trace_eq]
    exact List.filter_congr (fun s _ => h s)
  · intro s hmem hnc
    rw [add_user_results_lookup, if_neg]
    rintro ⟨h1, h2⟩
    rw [hnc] at h2
    exact Bool.false_ne_true h2

/-- C3, witness: listing quota before home still runs them in the fixed
order home then quota, a permuted listing gives the same trace, and the
unlisted ldap step is absent from the results. -/
theorem add_user_fixed_order_unlisted_absent_witness :
    add_user_trace ["quota", "home"] = ["home", "quota"] ∧
    add_user_trace ["quota", "home"] = add_user_trace ["home", "quota", "home"] ∧
    List.lookup "ldap"
      (add_user_results envAllOk 1001 "students" "alice" "Ivanova" "Alice" "secret123"
        ["quota", "home"]) = none :=
  ⟨by decide,
   (add_user_fixed_order_unlisted_absent envAllOk 1001 "students" "alice" "Ivanova" "Alice"
      "secret123" ["quota", "home"]).2.1 ["home", "quota", "home"]
     (fun s => by
       cases h1 : s == "quota" <;> cases h2 : s == "home" <;>
         simp [List.contains, List.elem, h1, h2]),
   (add_user_fixed_order_unlisted_absent envAllOk 1001 "students" "alice" "Ivanova" "Alice"
      "secret123" ["quota", "home"]).2.2 "ldap" (by decide) (by decide)⟩

/-- C9: requesting no steps, or only step names outside ldap, kerberos,
home, quota, performs no subsystem call, produces an empty per-step result
mapping, and returns overall True — unrecognized names are silently
ignored. -/
theorem add_user_unrecognized_steps_noop (env : Env) (uid : Int)
    (groups username surname firstname password : String) (steps : List String)
    (hun : steps.all (fun s => !(stepNames.contains s)) = true) :
    add_user_results env uid groups username surname firstname password steps = [] ∧
    add_user env uid groups username surname firstname password steps = true ∧
    add_user_trace steps = [] := by
  have hfilter : stepNames.filter (fun s => steps.contains s) = [] := by
    rw [List.filter_eq_nil]
    intro s hs hc
    have hmem : s ∈ steps := List.elem_iff.mp (by simpa using hc)
    have h2 := List.all_eq_true.mp hun s hmem
    rw [Bool.not_eq_true'] at h2
    exact Bool.false_ne_true (h2 ▸ List.elem_iff.mpr hs)
  refine ⟨?_, ?_, ?_⟩
  · rw [add_user_results_eq, hfilter]; rfl
  · rw [add_user_eq_all, hfilter]; rfl
  · rw [add_user_trace_eq, hfilter]

/-- C9, witness: both the empty step list and a list of only unrecognized
names yield an empty result mapping, overall True, and no invocations. -/
theorem add_user_unrecognized_steps_noop_witness :
    ((["frobnicate", "LDAP"].all (fun s => !(stepNames.contains s))) = true ∧
     add_user_results envAllOk 1001 "students" "alice" "Ivanova" "Alice" "secret123"
       ["frobnicate", "LDAP"] = [] ∧
     add_user envAllOk 1001 "students" "alice" "Ivanova" "Alice" "secret123"
       ["frobnicate", "LDAP"] = true ∧
     add_user_trace ["frobnicate", "LDAP"] = []) ∧
    ((([] : List String).all (fun s => !(stepNames.contains s))) = true ∧
     add_user_results envAllOk 1001 "students" "alice" "Ivanova" "Alice" "secret123" [] = [] ∧
     add_user envAllOk 1001 "students" "alice" "Ivanova" "Alice" "secret123" [] = true ∧
     add_user_trace [] = []) :=
  ⟨⟨by decide,
    add_user_unrecognized_steps_noop envAllOk 1001 "students" "alice" "Ivanova" "Alice"
      "secret123" ["frobnicate", "LDAP"] (by decide)⟩,
   ⟨by decide,
    add_user_unrecognized_steps_noop envAllOk 1001 "students" "alice" "Ivanova" "Alice"
      "secret123" [] (by decide)⟩⟩

/-- C4: one get_all_quotas call issues exactly two external quota-tool
invocations (the blocks report and the inodes report) when the filesystem
type is xfs, and exactly one (quota -a) otherwise — independent of the
backend responses and hence of the number of users in the report, never one
invocation per user. -/
theorem get_all_quotas_invocations (be : QuotaBackend) (fsType hb : String) :
    (get_all_quotas be fsType hb).1 =
      (if pyLower fsType = "xfs" then [xfsBlocksCmd hb, xfsInodesCmd hb]
       else [genericAllCmd]) ∧
    (get_all_quotas be fsType hb).1.length = (if pyLower fsType = "xfs" then 2 else 1) := by
  unfold get_all_quotas
  by_cases h : pyLower fsType = "xfs" <;> simp [h]

/-- C7: check_kerberos_principal returns true iff no exception occurred, the
selected kadmin query exited with code zero, and its stdout contains the
literal marker "Principal: username@REALM"; in every other situation
(nonzero exit, missing marker despite exit zero, or an exception) it
returns false — it never throws. -/
theorem check_kerberos_principal_spec (env : KrbEnv) (username : String) :
    check_kerberos_principal env username = true ↔
      (env.krbRaises username = false ∧
       (kadminResultUsed env username).returncode = 0 ∧
       pyIn ("Principal: " ++ (username ++ "@" ++ env.realm))
         (kadminResultUsed env username).stdout = true) := by
  unfold check_kerberos_principal kadminResultUsed
  cases hr : env.krbRaises username
  · by_cases hm : env.check_method = "kadmin.local" ∧ env.euid = 0 <;>
      simp [hr, hm, Bool.and_eq_true, decide_eq_true_iff]
  · simp [hr]

/-- Unfolding equation of process_user_file on a present file. -/
theorem process_user_file_some (env : Env) (steps lines : List String) :
    process_user_file env (some lines) steps =
      lines.foldl (processLineStep env steps) ([], []) := rfl

/-- C6: a missing manifest yields the empty result mapping and no
invocations; a malformed line (non-blank, non-comment, but not exactly 6
fields or with a non-integer uid) contributes nothing — the file processes
exactly as if the line were deleted, so all other lines are unaffected —
and a username for which no well-formed line exists is absent from the
result mapping. -/
theorem process_user_file_malformed (env : Env) (steps : List String)
    (pre post : List String) (line : String)
    (hbad : badLine line = true) :
    process_user_file env none steps = ([], []) ∧
    process_user_file env (some (pre ++ line :: post)) steps =
      process_user_file env (some (pre ++ post)) steps ∧
    (∀ u, noLineFor u (pre ++ line :: post) = true →
      List.lookup u (process_user_file env (some (pre ++ line :: post)) steps).1 = none) := by
  have hparse : parseUserLine line = none := by
    unfold badLine at hbad
    rw [Bool.and_eq_true, Bool.and_eq_true] at hbad
    exact Option.isNone_iff_eq_none.mp hbad.2
  refine ⟨rfl, ?_, ?_⟩
  · rw [process_user_file_some, process_user_file_some,
        List.foldl_append, List.foldl_append, List.foldl_cons]
    rw [show processLineStep env steps (pre.foldl (processLineStep env steps) ([], [])) line =
          pre.foldl (processLineStep env steps) ([], []) by
        unfold processLineStep; rw [hparse]]
  · intro u hno
    rw [process_user_file_some, processLineStep_fold]
    simp only
    rw [lookup_foldl_insert]
    have hfilter : ((pre ++ line :: post).filterMap parseUserLine).filter
        (fun sp => sp.username == u) = [] := by
      rw [List.filter_eq_nil]
      intro sp hsp
      obtain ⟨l, hl, hpl⟩ := List.mem_filterMap.mp hsp
      have := List.all_eq_true.mp hno l hl
      rw [hpl] at this
      simpa using this
    rw [hfilter]
    rfl

/-- C6, witness: a 2-field line is skipped, the file processes as if that
line were absent, and a username occurring on no well-formed line is absent
from the result mapping. -/
theorem process_user_file_malformed_witness :
    badLine "1001 students" = true ∧
    (process_user_file envAllOk none ["home"] = ([], []) ∧
     process_user_file envAllOk
       (some ["1001 students alice Ivanova Alice pw", "1001 students",
              "1002 students bob Petrov Bob pw"]) ["home"] =
       process_user_file envAllOk
         (some ["1001 students alice Ivanova Alice pw",
                "1002 students bob Petrov Bob pw"]) ["home"]) ∧
    List.lookup "carol"
      (process_user_file envAllOk
        (some ["1001 students alice Ivanova Alice pw", "1001 students",
               "1002 students bob Petrov Bob pw"]) ["home"]).1 = none :=
  ⟨by decide,
   ⟨(process_user_file_malformed envAllOk ["home"]
       ["1001 students alice Ivanova Alice pw"]
       ["1002 students bob Petrov Bob pw"] "1001 students" (by decide)).1,
    (process_user_file_malformed envAllOk ["home"]
       ["1001 students alice Ivanova Alice pw"]
       ["1002 students bob Petrov Bob pw"] "1001 students" (by decide)).2.1⟩,
   (process_user_file_malformed envAllOk ["home"]
      ["1001 students alice Ivanova Alice pw"]
      ["1002 students bob Petrov Bob pw"] "1001 students" (by decide)).2.2 "carol"
     (by decide)⟩

/-- C10: process_user_file invokes the workflow once per well-formed line in
file order (duplicate usernames included); the result mapping has at most
one entry per username, and looking a username up yields the outcome of the
last well-formed line with that username (earlier occurrences are
overwritten). -/
theorem process_user_file_duplicates (env : Env) (steps : List String)
    (lines : List String) :
    (process_user_file env (some lines) steps).2 = lines.filterMap parseUserLine ∧
    (∀ u, List.lookup u (process_user_file env (some lines) steps).1 =
      match ((lines.filterMap parseUserLine).filter
          (fun sp => sp.username == u)).getLast? with
      | some sp => some (specOutcome env steps sp)
      | none => none) ∧
    ((process_user_file env (some lines) steps).1.map Prod.fst).Nodup := by
  refine ⟨?_, ?_, ?_⟩
  · rw [process_user_file_some, processLineStep_fold]
    simp
  · intro u
    rw [process_user_file_some, processLineStep_fold]
    simp only
    rw [lookup_foldl_insert]
    cases h : ((lines.filterMap parseUserLine).filter
        (fun sp => sp.username == u)).getLast? <;> simp only [h] <;> rfl
  · rw [process_user_file_some, processLineStep_fold]
    exact nodup_keys_foldl_insert _ _ [] (by simp)

/-- C10, witness: two well-formed lines for alice with different passwords;
the workflow runs once per line in order, and the mapping holds the outcome
of the last occurrence (True: its password is accepted) even though the
first occurrence failed. -/
theorem process_user_file_duplicates_witness :
    (process_user_file envPwKrb
      (some ["1001 students alice Ivanova Alice bad",
             "1001 students alice Ivanova Alice good"]) ["kerberos"]).2 =
      [⟨1001, "students", "alice", "Ivanova", "Alice", "bad"⟩,
       ⟨1001, "students", "alice", "Ivanova", "Alice", "good"⟩] ∧
    specOutcome envPwKrb ["kerberos"] ⟨1001, "students", "alice", "Ivanova", "Alice", "bad"⟩
      = false ∧
    specOutcome envPwKrb ["kerberos"] ⟨1001, "students", "alice", "Ivanova", "Alice", "good"⟩
      = true ∧
    List.lookup "alice"
      (process_user_file envPwKrb
        (some ["1001 students alice Ivanova Alice bad",
               "1001 students alice Ivanova Alice good"]) ["kerberos"]).1 = some true :=
  ⟨((process_user_file_duplicates envPwKrb ["kerberos"]
      ["1001 students alice Ivanova Alice bad",
       "1001 students alice Ivanova Alice good"]).1).trans (by decide),
   by decide, by decide,
   ((process_user_file_duplicates envPwKrb ["kerberos"]
      ["1001 students alice Ivanova Alice bad",
       "1001 students alice Ivanova Alice good"]).2.1 "alice").trans (by decide)⟩

/-- A report in which every line contributes nothing for the matcher has no
last match. -/
theorem lastMatch_none_of_all (m : String → Option String) (lines : List String)
    (h : lines.all (fun line => (m line).isNone) = true) :
    lastMatch m lines = none := by
  unfold lastMatch
  have hfm : lines.filterMap m = [] := by
    rw [List.filterMap_eq_nil]
    intro a ha
    exact Option.isNone_iff_eq_none.mp (List.all_eq_true.mp h a ha)
  rw [hfm]
  rfl

/-- C5, counterexample: on the generic family, the same raw backend report
text containing a matching data row for alice renders as
"blocks: 10/20; inodes: 1/5" under the batch parser but as the not-set
sentinel under the legacy single-user parser (which reads only the third
output line), so the two parsers do not agree. -/
theorem batch_vs_single_generic_counterexample :
    ((reportLines beGen1.genericAll).any
      (fun line => (genRowMatch "alice" line).isSome) = true) ∧
    beGen1.genericUser "alice" = beGen1.genericAll ∧
    (List.lookup "alice" (get_all_quotas beGen1 "ext4" "/home").2).bind
      QuotaEntry.quota_str = some "blocks: 10/20; inodes: 1/5" ∧
    get_user_quota beGen1 "ext4" "/home" "alice" = "Не установлена" := by
  refine ⟨?_, ?_, ?_, ?_⟩ <;> decide

/-- C5, amended: the agreement holds on the XFS family.  For any pair of
xfs report responses, a username that is not a sentinel token, whose legacy
matching criterion (stripped line starts with the username) coincides with
the batch criterion (first token equals the username) on every parsed line,
and that has a matching data row in at least one report, receives the same
rendering "blocks: U/S/H; inodes: U/S/H" (with "-" for a missing side) from
the batch parser and the legacy single-user parser.  On the generic family
the two parsers consume different report shapes (all rows of quota -a
versus only the third line of quota -u) and can disagree on the same
text. -/
theorem xfs_batch_single_parser_agree (be : QuotaBackend) (fsType hb u : String)
    (hfs : pyLower fsType = "xfs")
    (hsent : xfsSentinels.contains u = false)
    (hal1 : startsMatchAligned u (effReportLines be.xfsBlocks) = true)
    (hal2 : startsMatchAligned u (effReportLines be.xfsInodes) = true)
    (hmatch : ((lastMatch (rowMatch u) (effReportLines be.xfsBlocks)).isSome ||
               (lastMatch (rowMatch u) (effReportLines be.xfsInodes)).isSome) = true) :
    (List.lookup u (get_all_quotas be fsType hb).2).bind QuotaEntry.quota_str =
      some (get_user_quota be fsType hb u) := by
  rw [get_all_quotas_xfs_lookup be fsType hb u hfs,
      get_user_quota_xfs be fsType hb u hfs,
      ← lastMatch_row_eq_legacy u (effReportLines be.xfsBlocks) hsent hal1,
      ← lastMatch_row_eq_legacy u (effReportLines be.xfsInodes) hsent hal2]
  rcases h1 : lastMatch (rowMatch u) (effReportLines be.xfsBlocks) with _ | b <;>
    rcases h2 : lastMatch (rowMatch u) (effReportLines be.xfsInodes) with _ | i
  · rw [h1, h2] at hmatch
    simp at hmatch
  · simp
  · simp
  · simp

/-- C5, witness for the amended theorem: on a realistic pair of xfs reports
both parsers render alice as "blocks: 50M/100M/200M; inodes:
500/1000/2000". -/
theorem xfs_batch_single_parser_agree_witness :
    (pyLower "xfs" = "xfs" ∧
     xfsSentinels.contains "alice" = false ∧
     startsMatchAligned "alice" (effReportLines beXfs1.xfsBlocks) = true ∧
     startsMatchAligned "alice" (effReportLines beXfs1.xfsInodes) = true ∧
     ((lastMatch (rowMatch "alice") (effReportLines beXfs1.xfsBlocks)).isSome ||
      (lastMatch (rowMatch "alice") (effReportLines beXfs1.xfsInodes)).isSome) = true) ∧
    (List.lookup "alice" (get_all_quotas beXfs1 "xfs" "/home").2).bind
      QuotaEntry.quota_str = some (get_user_quota beXfs1 "xfs" "/home" "alice") :=
  ⟨⟨by decide, by decide, by decide, by decide, by decide⟩,
   xfs_batch_single_parser_agree beXfs1 "xfs" "/home" "alice"
     (by decide) (by decide) (by decide) (by decide) (by decide)⟩

/-- C8: a username with no matching data row in any backend report renders
as the sentinel "Не установлена" (not set), both in the quota column of the
detailed listing (built from the batch report) and in the legacy single-user
renderer — not as an empty record or an error. -/
theorem absent_user_renders_not_set (be : QuotaBackend) (fsType hb u : String)
    (hx : pyLower fsType = "xfs" →
      xfsNoRowFor u be.xfsBlocks = true ∧ xfsNoRowFor u be.xfsInodes = true)
    (hg : ¬(pyLower fsType = "xfs") →
      genericNoRowFor u be.genericAll = true ∧
      genericUserNoRow (be.genericUser u) = true) :
    list_user_quota_field be fsType hb u = "Не установлена" ∧
    get_user_quota be fsType hb u = "Не установлена" := by
  by_cases hfs : pyLower fsType = "xfs"
  · obtain ⟨hb1, hb2⟩ := hx hfs
    unfold xfsNoRowFor at hb1 hb2
    have hrow1 : lastMatch (rowMatch u) (effReportLines be.xfsBlocks) = none := by
      refine lastMatch_none_of_all _ _ (List.all_eq_true.mpr fun l hl => ?_)
      exact ((Bool.and_eq_true _ _).mp (List.all_eq_true.mp hb1 l hl)).1
    have hrow2 : lastMatch (rowMatch u) (effReportLines be.xfsInodes) = none := by
      refine lastMatch_none_of_all _ _ (List.all_eq_true.mpr fun l hl => ?_)
      exact ((Bool.and_eq_true _ _).mp (List.all_eq_true.mp hb2 l hl)).1
    have hleg1 : lastMatch (legacyMatch u) (effReportLines be.xfsBlocks) = none := by
      refine lastMatch_none_of_all _ _ (List.all_eq_true.mpr fun l hl => ?_)
      exact ((Bool.and_eq_true _ _).mp (List.all_eq_true.mp hb1 l hl)).2
    have hleg2 : lastMatch (legacyMatch u) (effReportLines be.xfsInodes) = none := by
      refine lastMatch_none_of_all _ _ (List.all_eq_true.mpr fun l hl => ?_)
      exact ((Bool.and_eq_true _ _).mp (List.all_eq_true.mp hb2 l hl)).2
    constructor
    · unfold list_user_quota_field
      rw [get_all_quotas_xfs_lookup be fsType hb u hfs, hrow1, hrow2]
      rfl
    · rw [get_user_quota_xfs be fsType hb u hfs, hleg1, hleg2]
  · obtain ⟨hg1, hg2⟩ := hg hfs
    constructor
    · unfold list_user_quota_field
      rw [get_all_quotas_generic_lookup be fsType hb u hfs,
          lastMatch_none_of_all _ _ hg1]
      rfl
    · unfold get_user_quota
      rw [if_neg hfs]
      unfold genericUserNoRow at hg2
      rw [Bool.or_eq_true, Bool.or_eq_true] at hg2
      rcases hg2 with (h | h) | h
      · rw [if_neg (by simpa using h)]
      · have hlt : (reportLines (be.genericUser u)).length < 3 := of_decide_eq_true h
        by_cases hrc : (be.genericUser u).returncode = 0
        · rw [if_pos hrc, if_neg (by omega)]
        · rw [if_neg hrc]
      · have hlt : (pySplit ((reportLines (be.genericUser u)).getD 2 "")).length < 4 :=
          of_decide_eq_true h
        by_cases hrc : (be.genericUser u).returncode = 0
        · rw [if_pos hrc]
          by_cases hlen : (reportLines (be.genericUser u)).length ≥ 3
          · rw [if_pos hlen]
            generalize pySplit ((reportLines (be.genericUser u)).getD 2 "") = L at hlt ⊢
            rcases L with _ | ⟨a, _ | ⟨b, _ | ⟨c, _ | ⟨d, rest⟩⟩⟩⟩
            · rfl
            · rfl
            · rfl
            · rfl
            · exfalso
              simp at hlt
              omega
          · rw [if_neg hlen]
        · rw [if_neg hrc]

/-- C8, witness: bob has no row in either xfs report, and both the listing
quota column and the legacy renderer display the not-set sentinel. -/
theorem absent_user_renders_not_set_witness :
    ((pyLower "xfs" = "xfs" →
      xfsNoRowFor "bob" beXfs1.xfsBlocks = true ∧
      xfsNoRowFor "bob" beXfs1.xfsInodes = true) ∧
     (¬(pyLower "xfs" = "xfs") →
      genericNoRowFor "bob" beXfs1.genericAll = true ∧
      genericUserNoRow (beXfs1.genericUser "bob") = true)) ∧
    (list_user_quota_field beXfs1 "xfs" "/home" "bob" = "Не установлена" ∧
     get_user_quota beXfs1 "xfs" "/home" "bob" = "Не установлена") :=
  ⟨⟨by decide, by decide⟩,
   absent_user_renders_not_set beXfs1 "xfs" "/home" "bob" (by decide) (by decide)⟩

end UserAdmin
